import Mathlib

/-!
Verification of the RainingKeys bar physics and pooling engine
(`src/core/overlay.py`, with configuration defaults from
`src/core/configuration.py`).

Shallow embedding conventions:
* Python `float` time/geometry quantities are embedded as `ℚ`.
* A `Bar` object's identity is its index into the pool's `store` list;
  the two deques `active_bars` / `inactive_bars` hold indices.
* `collections.deque` operations map as follows. The `inactive_bars`
  deque is only ever touched at its right end (`append` in
  `BarPool.__init__`/`BarPool.recycle`, `pop` in `BarPool.spawn`), so it
  is embedded with its RIGHTMOST element first: `append x` is `x :: l`,
  `pop` takes the head. The `active_bars` deque is embedded left-to-right
  (head = oldest): `append` is `l ++ [x]`, `popleft` takes the head, and
  `remove` is `List.erase` (first occurrence, identity equality).
-/

namespace RainingKeys

/-- One falling visual bar (`overlay.py` class `Bar`, lines 18-26).
`release_time = none` means the key is still held. -/
structure Bar where
  lane_index : ℤ
  press_time : ℚ
  release_time : Option ℚ
  active : Bool
deriving DecidableEq, Repr

/-- Python `Bar.__init__`: the freshly constructed bar. -/
def Bar.mkNew : Bar :=
  { lane_index := 0, press_time := 0, release_time := none, active := false }

/-- The object pool (`overlay.py` class `BarPool`).  `store` is the arena
of all `Bar` objects ever allocated; the deques hold indices into it. -/
structure BarPool where
  max_size : ℕ
  active_bars : List ℕ
  inactive_bars : List ℕ
  store : List Bar
deriving DecidableEq, Repr

/-- Python `BarPool.__init__` (lines 32-40): pre-allocate `min(max_size, 50)`
inactive bars.  The bars are appended at the deque's right end, so in the
rightmost-first embedding the last allocated index comes first. -/
def BarPool.init (max_size : ℕ) : BarPool :=
  let initial_alloc := min max_size 50
  { max_size := max_size
    active_bars := []
    inactive_bars := (List.range initial_alloc).reverse
    store := List.replicate initial_alloc Bar.mkNew }

/-- Python `BarPool.spawn` (lines 42-61).  Returns the updated pool and the index
of the spawned bar.  The four acquisition branches mirror the source:
take from inactive, allocate below `max_size`, evict the oldest active
(`popleft`), or allocate as the final fallback. -/
def BarPool.spawn (p : BarPool) (lane_index : ℤ) (timestamp : ℚ) : BarPool × ℕ :=
  let pick : ℕ × List ℕ × List ℕ × List Bar :=
    match p.inactive_bars with
    | id :: rest => (id, p.active_bars, rest, p.store)
    | [] =>
      if p.active_bars.length + p.inactive_bars.length < p.max_size then
        (p.store.length, p.active_bars, p.inactive_bars, p.store ++ [Bar.mkNew])
      else
        match p.active_bars with
        | id :: rest => (id, rest, p.inactive_bars, p.store)
        | [] => (p.store.length, p.active_bars, p.inactive_bars, p.store ++ [Bar.mkNew])
  match pick with
  | (id, act, inact, st) =>
    ({ p with
        active_bars := act ++ [id]
        inactive_bars := inact
        store := st.set id
          { lane_index := lane_index, press_time := timestamp
            release_time := none, active := true } }, id)

/-- Python `BarPool.recycle` (lines 63-66): mark the bar inactive and append it
to the inactive deque.  It does NOT remove the bar from `active_bars`;
the caller does that. -/
def BarPool.recycle (p : BarPool) (id : ℕ) : BarPool :=
  { p with
      store := p.store.set id { p.store.getD id Bar.mkNew with active := false }
      inactive_bars := id :: p.inactive_bars }

/-- The engine's only recycle call site
(`RainingKeysOverlay._draw_active_bars`, lines 330-336):
`active_bars.remove(bar)` followed by `pool.recycle(bar)`, with the
`ValueError` from a failed `remove` swallowed (so a bar absent from the
active deque is left untouched). -/
def BarPool.recycleFromActive (p : BarPool) (id : ℕ) : BarPool :=
  if id ∈ p.active_bars then
    BarPool.recycle { p with active_bars := p.active_bars.erase id } id
  else
    p

/-- One pool operation as the engine performs it: a spawn
(`handle_input` → `BarPool.spawn`) or a recycle through the guarded call
site above. -/
inductive PoolOp : Type
  | spawn (lane_index : ℤ) (timestamp : ℚ)
  | recycle (id : ℕ)
deriving DecidableEq, Repr

/-- Apply one operation to the pool. -/
def applyOp (p : BarPool) : PoolOp → BarPool
  | .spawn lane t => (p.spawn lane t).1
  | .recycle id => p.recycleFromActive id

/-- Run a sequence of operations from a freshly constructed pool. -/
def runOps (max_size : ℕ) (ops : List PoolOp) : BarPool :=
  ops.foldl applyOp (BarPool.init max_size)

/-- Total entry count `len(active_bars) + len(inactive_bars)`. -/
def poolCount (p : BarPool) : ℕ :=
  p.active_bars.length + p.inactive_bars.length

/-- All pool-entry indices currently sitting in one of the two deques. -/
def poolIds (p : BarPool) : List ℕ :=
  p.active_bars ++ p.inactive_bars

/-! ## Per-frame physics (`RainingKeysOverlay._draw_active_bars`, lines 257-336) -/

/-- The configuration values `_draw_active_bars` reads before its loop
(lines 258-270).  Defaults come from `configuration.py`:
`scroll_speed=800`, `bar_height=20`, `INPUT_LATENCY_OFFSET=0.0`,
`FADE_START_Y=800`, `FADE_RANGE=200`. -/
structure PhysCfg where
  scroll_speed : ℚ
  input_latency : ℚ
  bar_height_min : ℚ
  fade_start_y : ℚ
  fade_range : ℚ
deriving DecidableEq, Repr

/-- The `configuration.py` defaults for the physics parameters. -/
def defaultPhysCfg : PhysCfg :=
  { scroll_speed := 800, input_latency := 0, bar_height_min := 20
    fade_start_y := 800, fade_range := 200 }

/-- Line 275-276: `dist_head = (now - press_time + input_latency) * speed`. -/
def distHead (cfg : PhysCfg) (now press_time : ℚ) : ℚ :=
  (now - press_time + cfg.input_latency) * cfg.scroll_speed

/-- Lines 278-282: the tail distance before any clamping;
`input_latency * speed` while held, `(now - release + input_latency) * speed`
after release. -/
def distTailRaw (cfg : PhysCfg) (now : ℚ) (release_time : Option ℚ) : ℚ :=
  match release_time with
  | none => cfg.input_latency * cfg.scroll_speed
  | some r => (now - r + cfg.input_latency) * cfg.scroll_speed

/-- Lines 309-314: opacity from head distance.
`alpha = 1` unless `dist_head > fade_start_y`, in which case
`alpha = max(0, min(1, 1 - (dist_head - fade_start_y) / fade_range))`. -/
def alphaOf (cfg : PhysCfg) (dist_head : ℚ) : ℚ :=
  if dist_head > cfg.fade_start_y then
    max 0 (min 1 (1 - (dist_head - cfg.fade_start_y) / cfg.fade_range))
  else
    1

/-- Everything the loop body of `_draw_active_bars` computes for one bar. -/
structure FrameCalc where
  dist_head : ℚ
  dist_tail : ℚ
  height_bar : ℚ
  rect_y : ℚ
  should_recycle : Bool
  alpha : ℚ
deriving DecidableEq, Repr

/-- The loop body of `_draw_active_bars` (lines 274-314) for one bar:
physics, the minimum-height clamp, screen position, the recycle test and
the fade factor.  `direction` is `1` when bars flow toward increasing Y
and `-1` otherwise (set in `paintEvent`, lines 234-239). -/
def computeBar (cfg : PhysCfg) (direction : ℤ) (origin_y screen_h now : ℚ)
    (bar : Bar) : FrameCalc :=
  let dh := distHead cfg now bar.press_time
  let dt0 := distTailRaw cfg now bar.release_time
  let h0 := dh - dt0
  let hdt : ℚ × ℚ :=
    if h0 < cfg.bar_height_min then (cfg.bar_height_min, dh - cfg.bar_height_min)
    else (h0, dt0)
  let ry := if direction = 1 then origin_y + hdt.2 else origin_y - dh
  let sr : Bool :=
    if direction = 1 then decide (ry > screen_h) else decide (ry + hdt.1 < 0)
  { dist_head := dh, dist_tail := hdt.2, height_bar := hdt.1, rect_y := ry
    should_recycle := sr, alpha := alphaOf cfg dh }

/-- What the loop body does with one bar: add it to `to_recycle` and
`continue` (line 305-307), skip drawing because `alpha <= 0`
(line 316-317), or draw it. -/
inductive BarOutcome : Type
  | recycled
  | skipped
  | drawn
deriving DecidableEq, Repr

/-- The control flow of the loop body: the recycle test fires before the
fade logic runs, and a fully transparent bar is merely not drawn. -/
def barOutcome (cfg : PhysCfg) (direction : ℤ) (origin_y screen_h now : ℚ)
    (bar : Bar) : BarOutcome :=
  let c := computeBar cfg direction origin_y screen_h now bar
  if c.should_recycle then .recycled
  else if c.alpha ≤ 0 then .skipped
  else .drawn

/-- A whole `_draw_active_bars` pass over the pool: collect the bars that
satisfy the recycle test, draw the visible remainder, then return the
collected bars through the guarded recycle call site.  Yields the updated
pool and the indices actually drawn. -/
def frameStep (cfg : PhysCfg) (direction : ℤ) (origin_y screen_h now : ℚ)
    (p : BarPool) : BarPool × List ℕ :=
  let calcOf := fun id =>
    computeBar cfg direction origin_y screen_h now (p.store.getD id Bar.mkNew)
  let to_recycle := p.active_bars.filter fun id => (calcOf id).should_recycle
  let drawn := p.active_bars.filter fun id =>
    !(calcOf id).should_recycle && decide (0 < (calcOf id).alpha)
  (to_recycle.foldl BarPool.recycleFromActive p, drawn)

/-! ## Layout (`RainingKeysOverlay.get_kv_geometry`, lines 187-217, and the
origin/direction decision in `paintEvent`, lines 231-239) -/

/-- Setting `key_viewer.panel_position` (`configuration.py`): the string setting,
with any value other than the two recognised ones treated as `auto`
(the `else` branch at line 202). -/
inductive PanelPos : Type
  | above
  | below
  | auto
deriving DecidableEq, Repr

/-- The configuration values `get_kv_geometry` reads.  Defaults from
`configuration.py`: `lane_width=70`, `key_viewer.height=60`,
`panel_position='below'`, `panel_offset_y=0`. -/
structure KVCfg where
  lane_width : ℚ
  kv_height : ℚ
  panel_position : PanelPos
  panel_offset_y : ℚ
deriving DecidableEq, Repr

/-- The cached geometry dictionary built at lines 210-216. -/
structure KVGeom where
  y : ℚ
  height : ℚ
  width : ℚ
  is_top : Bool
  screen_h : ℚ
deriving DecidableEq, Repr

/-- The computation in `get_kv_geometry` (lines 192-216), ignoring the
cache: base Y from the configured panel position, offset applied, then
the flow-direction test `is_top = (start_y + key_height/2) < screen_h/2`. -/
def get_kv_geometry (cfg : KVCfg) (screen_h : ℚ) : KVGeom :=
  let base_y : ℚ :=
    match cfg.panel_position with
    | .above => 50
    | .below => screen_h - cfg.kv_height - 50
    | .auto => screen_h - cfg.kv_height - 50
  let start_y := base_y + cfg.panel_offset_y
  { y := start_y
    height := cfg.kv_height
    width := cfg.lane_width
    is_top := decide (start_y + cfg.kv_height / 2 < screen_h / 2)
    screen_h := screen_h }

/-- The cache check at lines 189-190: a stored geometry is reused only
when present and computed for the same screen height; otherwise the
geometry is recomputed from the current configuration. -/
def getKvGeometryCached (cfg : KVCfg) (cached : Option KVGeom) (screen_h : ℚ) : KVGeom :=
  match cached with
  | some g => if g.screen_h = screen_h then g else get_kv_geometry cfg screen_h
  | none => get_kv_geometry cfg screen_h

/-- The origin/direction decision in `paintEvent` (lines 234-239):
`is_top` → origin at the panel's bottom edge, direction `1` (down);
otherwise origin at the panel's top edge, direction `-1` (up). -/
def originDirection (g : KVGeom) : ℚ × ℤ :=
  if g.is_top then (g.y + g.height, 1) else (g.y, -1)

/-! ## Input handling and settings changes
(`RainingKeysOverlay.handle_input` lines 160-172, `handle_release`
lines 174-182, `_init_key_counts` lines 103-107, `on_settings_changed`
lines 131-136) -/

/-- Look up a key in an association list (a Python dict). -/
def lookupKC (kc : List (ℤ × ℕ)) (lane : ℤ) : Option ℕ :=
  kc.lookup lane

/-- Increment `key_counts[lane] += 1` on the association-list embedding of the dict. -/
def bumpCount (kc : List (ℤ × ℕ)) (lane : ℤ) : List (ℤ × ℕ) :=
  kc.map fun p => if p.1 = lane then (p.1, p.2 + 1) else p

/-- Python `_init_key_counts` (lines 103-107): for each lane index among the
current lane map's values, add a zero counter only when the index has no
counter yet.  Existing counters are left untouched. -/
def initKeyCounts (laneValues : List ℤ) (kc : List (ℤ × ℕ)) : List (ℤ × ℕ) :=
  laneValues.foldl (fun m idx => if (m.lookup idx).isSome then m else m ++ [(idx, 0)]) kc

/-- The state effects of `on_settings_changed` (lines 131-136) on the
key counters and the geometry cache: `_init_key_counts()` then
`cached_kv_geom = None`.  (The `move`/`update_layout` calls only touch
window geometry.) -/
def onSettingsChangedState (laneValues : List ℤ) (key_counts : List (ℤ × ℕ))
    (cached : Option KVGeom) : List (ℤ × ℕ) × Option KVGeom :=
  (initKeyCounts laneValues key_counts, (none : Option KVGeom))

/-- The overlay state touched by `handle_input`/`handle_release`:
the pool, the `active_holds` dict (lane → bar index), the
`active_keys_visual` set and the `key_counts` dict. -/
structure InputState where
  pool : BarPool
  active_holds : List (ℤ × ℕ)
  active_keys_visual : List ℤ
  key_counts : List (ℤ × ℕ)
deriving DecidableEq, Repr

/-- Python `handle_input` (lines 160-172): a lane already in `active_holds` is
`pass`ed over; otherwise a bar is spawned, recorded as held, the lane is
marked visually active and its counter (created at zero if missing) is
incremented.  No lane-map membership test appears anywhere. -/
def handle_input (s : InputState) (lane_index : ℤ) (timestamp : ℚ) : InputState :=
  if (s.active_holds.lookup lane_index).isSome then
    s
  else
    match s.pool.spawn lane_index timestamp with
    | (pool', id) =>
      let kc :=
        if (s.key_counts.lookup lane_index).isSome then s.key_counts
        else s.key_counts ++ [(lane_index, 0)]
      { pool := pool'
        active_holds := s.active_holds ++ [(lane_index, id)]
        active_keys_visual :=
          if lane_index ∈ s.active_keys_visual then s.active_keys_visual
          else s.active_keys_visual ++ [lane_index]
        key_counts := bumpCount kc lane_index }

/-- Write `release_time` on one stored bar (`bar.release_time = timestamp`,
line 178). -/
def setRelease (p : BarPool) (id : ℕ) (timestamp : ℚ) : BarPool :=
  { p with store := p.store.set id ({ p.store.getD id Bar.mkNew with release_time := some timestamp }) }

/-- Python `handle_release` (lines 174-182): pop the hold and stamp the release
time when the lane is held, then drop the lane from the visual set when
present. -/
def handle_release (s : InputState) (lane_index : ℤ) (timestamp : ℚ) : InputState :=
  let s1 :=
    match s.active_holds.lookup lane_index with
    | some id =>
      { s with
          active_holds := s.active_holds.filter fun p => p.1 ≠ lane_index
          pool := setRelease s.pool id timestamp }
    | none => s
  { s1 with active_keys_visual := s1.active_keys_visual.filter fun l => l ≠ lane_index }

/-- The lane indices of the default lane map
(`configuration.py` `__post_init__`: `{'d': 0, 'f': 1, 'j': 2, 'k': 3}`). -/
def defaultLaneValues : List ℤ := [0, 1, 2, 3]

/-- The pool's structural invariant: no pool-entry index sits in a deque
twice, and the indices in the two deques are exactly the allocated
entries of the arena. -/
def PoolInv (p : BarPool) : Prop :=
  (poolIds p).Nodup ∧ ∀ id : ℕ, id ∈ poolIds p ↔ id < p.store.length

/-! ## Theorems -/

/-- C4: for every active bar and frame time `now ≥ press_time`, the
per-frame physics computes `dist_head = (now - press_time +
input_latency_offset) * scroll_speed`, `dist_tail = input_latency_offset *
scroll_speed` while held and `(now - release_time + input_latency_offset)
* scroll_speed` after release, and `height = dist_head - dist_tail`
(stated for frames where the minimum-height clamp of lines 286-288 does
not fire, which is the regime the claim's formulas describe); in
particular, for a press on lane 0 at `t = 0` with `scroll_speed = 800`
and `input_latency_offset = 0`, at `t = 0.1` the engine computes
`dist_head = 80`, `dist_tail = 0`, `height = 80`, and after a release at
`t = 0.2`, at `t = 0.25` it computes `dist_head = 200`, `dist_tail = 40`,
`height = 160`. -/
theorem claim4_physics_formulas (cfg : PhysCfg) (direction : ℤ)
    (origin_y screen_h now : ℚ) (bar : Bar)
    (hnow : bar.press_time ≤ now)
    (hclamp : cfg.bar_height_min ≤
      distHead cfg now bar.press_time - distTailRaw cfg now bar.release_time) :
    ((computeBar cfg direction origin_y screen_h now bar).dist_head
        = (now - bar.press_time + cfg.input_latency) * cfg.scroll_speed
      ∧ (bar.release_time = none →
          (computeBar cfg direction origin_y screen_h now bar).dist_tail
            = cfg.input_latency * cfg.scroll_speed)
      ∧ (∀ r : ℚ, bar.release_time = some r →
          (computeBar cfg direction origin_y screen_h now bar).dist_tail
            = (now - r + cfg.input_latency) * cfg.scroll_speed)
      ∧ (computeBar cfg direction origin_y screen_h now bar).height_bar
          = (computeBar cfg direction origin_y screen_h now bar).dist_head
            - (computeBar cfg direction origin_y screen_h now bar).dist_tail)
    ∧ (computeBar defaultPhysCfg 1 0 1080 (1/10)
        { lane_index := 0, press_time := 0, release_time := none, active := true }).dist_head = 80
    ∧ (computeBar defaultPhysCfg 1 0 1080 (1/10)
        { lane_index := 0, press_time := 0, release_time := none, active := true }).dist_tail = 0
    ∧ (computeBar defaultPhysCfg 1 0 1080 (1/10)
        { lane_index := 0, press_time := 0, release_time := none, active := true }).height_bar = 80
    ∧ (computeBar defaultPhysCfg 1 0 1080 (1/4)
        { lane_index := 0, press_time := 0, release_time := some (1/5), active := true }).dist_head = 200
    ∧ (computeBar defaultPhysCfg 1 0 1080 (1/4)
        { lane_index := 0, press_time := 0, release_time := some (1/5), active := true }).dist_tail = 40
    ∧ (computeBar defaultPhysCfg 1 0 1080 (1/4)
        { lane_index := 0, press_time := 0, release_time := some (1/5), active := true }).height_bar = 160 := by
  refine ⟨?_,
    by norm_num [computeBar, distHead, distTailRaw, defaultPhysCfg],
    by norm_num [computeBar, distHead, distTailRaw, defaultPhysCfg],
    by norm_num [computeBar, distHead, distTailRaw, defaultPhysCfg],
    by norm_num [computeBar, distHead, distTailRaw, defaultPhysCfg],
    by norm_num [computeBar, distHead, distTailRaw, defaultPhysCfg],
    by norm_num [computeBar, distHead, distTailRaw, defaultPhysCfg]⟩
  have hno : ¬ (distHead cfg now bar.press_time - distTailRaw cfg now bar.release_time
      < cfg.bar_height_min) := not_lt.mpr hclamp
  refine ⟨?_, ?_, ?_, ?_⟩
  · simp [computeBar, distHead]
  · intro hrel
    simp only [computeBar]
    rw [if_neg hno]
    simp [distTailRaw, hrel]
  · intro r hrel
    simp only [computeBar]
    rw [if_neg hno]
    simp [distTailRaw, hrel]
  · simp only [computeBar]
    rw [if_neg hno]

/-- Witness for C4 at the released-bar scenario of the claim
(`press_time = 0`, `release_time = 0.2`, `now = 0.25`, default physics
configuration). -/
theorem claim4_physics_formulas_witness :
    ((0:ℚ) ≤ 1/4)
    ∧ defaultPhysCfg.bar_height_min ≤
        distHead defaultPhysCfg (1/4) 0 - distTailRaw defaultPhysCfg (1/4) (some (1/5))
    ∧ (computeBar defaultPhysCfg 1 0 1080 (1/4)
        { lane_index := 0, press_time := 0, release_time := some (1/5), active := true }).dist_head
      = ((1:ℚ)/4 - 0 + defaultPhysCfg.input_latency) * defaultPhysCfg.scroll_speed :=
  ⟨by norm_num, by norm_num [distHead, distTailRaw, defaultPhysCfg],
    (claim4_physics_formulas defaultPhysCfg 1 0 1080 (1/4)
      { lane_index := 0, press_time := 0, release_time := some (1/5), active := true }
      (by norm_num) (by norm_num [distHead, distTailRaw, defaultPhysCfg])).1.1⟩

/-- C5: for every active bar and every frame, the computed bar height is
at least `min_bar_height`, and whenever the raw height
`dist_head - dist_tail` falls below `min_bar_height` the engine clamps
the height to `min_bar_height` and recomputes `dist_tail`, so that after
clamping `dist_head - dist_tail = min_bar_height` holds exactly. -/
theorem claim5_min_height_clamp (cfg : PhysCfg) (direction : ℤ)
    (origin_y screen_h now : ℚ) (bar : Bar) :
    cfg.bar_height_min ≤ (computeBar cfg direction origin_y screen_h now bar).height_bar
    ∧ (distHead cfg now bar.press_time - distTailRaw cfg now bar.release_time
          < cfg.bar_height_min →
        (computeBar cfg direction origin_y screen_h now bar).height_bar = cfg.bar_height_min
        ∧ (computeBar cfg direction origin_y screen_h now bar).dist_head
            - (computeBar cfg direction origin_y screen_h now bar).dist_tail
          = cfg.bar_height_min) := by
  by_cases hc : distHead cfg now bar.press_time - distTailRaw cfg now bar.release_time
      < cfg.bar_height_min
  · refine ⟨?_, fun _ => ⟨?_, ?_⟩⟩ <;> simp [computeBar, hc]
  · refine ⟨?_, fun h => absurd h hc⟩
    simp [computeBar, hc]
    exact not_lt.mp hc

/-- Witness for C5 at a clamped frame: a held bar evaluated exactly at
its press instant has raw height `0 < 20`, and the clamp leaves
`dist_head - dist_tail = 20`. -/
theorem claim5_min_height_clamp_witness :
    defaultPhysCfg.bar_height_min
      ≤ (computeBar defaultPhysCfg 1 0 1080 0
          { lane_index := 0, press_time := 0, release_time := none, active := true }).height_bar
    ∧ (distHead defaultPhysCfg 0 0 - distTailRaw defaultPhysCfg 0 none
        < defaultPhysCfg.bar_height_min →
       (computeBar defaultPhysCfg 1 0 1080 0
          { lane_index := 0, press_time := 0, release_time := none, active := true }).height_bar
          = defaultPhysCfg.bar_height_min
        ∧ (computeBar defaultPhysCfg 1 0 1080 0
            { lane_index := 0, press_time := 0, release_time := none, active := true }).dist_head
            - (computeBar defaultPhysCfg 1 0 1080 0
                { lane_index := 0, press_time := 0, release_time := none, active := true }).dist_tail
          = defaultPhysCfg.bar_height_min) :=
  claim5_min_height_clamp defaultPhysCfg 1 0 1080 0
    { lane_index := 0, press_time := 0, release_time := none, active := true }

/-- C6: for every computed frame that reaches the fade step, `alpha = 1`
while `dist_head ≤ fade_start` and otherwise
`alpha = clamp(1 - (dist_head - fade_start) / fade_range, 0, 1)`, so
`alpha` always lies in `[0, 1]`; in particular with `fade_start = 800`
and `fade_range = 200`, `dist_head = 900` gives `alpha = 1/2`,
`dist_head = 1000` gives `alpha = 0`, and `dist_head = 1100` clamps
`alpha` to `0` rather than going negative.  (`fade_range > 0` is assumed:
Python would raise `ZeroDivisionError` on `fade_range = 0`.) -/
theorem claim6_alpha_clamp (cfg : PhysCfg) (direction : ℤ)
    (origin_y screen_h now : ℚ) (bar : Bar)
    (hrange : 0 < cfg.fade_range) :
    (((computeBar cfg direction origin_y screen_h now bar).dist_head ≤ cfg.fade_start_y →
        (computeBar cfg direction origin_y screen_h now bar).alpha = 1)
      ∧ (cfg.fade_start_y < (computeBar cfg direction origin_y screen_h now bar).dist_head →
          (computeBar cfg direction origin_y screen_h now bar).alpha
            = max 0 (min 1 (1 - ((computeBar cfg direction origin_y screen_h now bar).dist_head
                - cfg.fade_start_y) / cfg.fade_range)))
      ∧ 0 ≤ (computeBar cfg direction origin_y screen_h now bar).alpha
      ∧ (computeBar cfg direction origin_y screen_h now bar).alpha ≤ 1)
    ∧ alphaOf defaultPhysCfg 900 = 1/2
    ∧ alphaOf defaultPhysCfg 1000 = 0
    ∧ alphaOf defaultPhysCfg 1100 = 0 := by
  refine ⟨?_,
    by norm_num [alphaOf, defaultPhysCfg, min_def, max_def],
    by norm_num [alphaOf, defaultPhysCfg, min_def, max_def],
    by norm_num [alphaOf, defaultPhysCfg, min_def, max_def]⟩
  have hdh : (computeBar cfg direction origin_y screen_h now bar).dist_head
      = distHead cfg now bar.press_time := by
    simp [computeBar]
  have halpha : (computeBar cfg direction origin_y screen_h now bar).alpha
      = alphaOf cfg (distHead cfg now bar.press_time) := by
    simp [computeBar]
  rw [hdh, halpha]
  refine ⟨fun h => ?_, fun h => ?_, ?_, ?_⟩
  · simp [alphaOf, not_lt.mpr h]
  · simp [alphaOf, h]
  · by_cases h : distHead cfg now bar.press_time > cfg.fade_start_y <;>
      simp [alphaOf, h]
  · by_cases h : distHead cfg now bar.press_time > cfg.fade_start_y <;>
      simp [alphaOf, h]

/-- Witness for C6 at a faded frame: default configuration, a held bar
pressed at `t = 0` sampled at `now = 9/8` has `dist_head = 900 > 800`,
and its alpha is the clamped value `1/2`. -/
theorem claim6_alpha_clamp_witness :
    (0:ℚ) < defaultPhysCfg.fade_range
    ∧ (defaultPhysCfg.fade_start_y
        < (computeBar defaultPhysCfg 1 0 1080 (9/8)
            { lane_index := 0, press_time := 0, release_time := none, active := true }).dist_head →
      (computeBar defaultPhysCfg 1 0 1080 (9/8)
          { lane_index := 0, press_time := 0, release_time := none, active := true }).alpha
        = max 0 (min 1 (1 - ((computeBar defaultPhysCfg 1 0 1080 (9/8)
            { lane_index := 0, press_time := 0, release_time := none, active := true }).dist_head
              - defaultPhysCfg.fade_start_y) / defaultPhysCfg.fade_range))) :=
  ⟨by norm_num [defaultPhysCfg],
    (claim6_alpha_clamp defaultPhysCfg 1 0 1080 (9/8)
      { lane_index := 0, press_time := 0, release_time := none, active := true }
      (by norm_num [defaultPhysCfg])).1.2.1⟩

/-- C1: when the inactive deque is empty and the total entry count has
reached `max_size` while the active deque is non-empty, `spawn` evicts
the head of the active deque — the oldest entry in FIFO spawn order —
reuses its storage for the new bar (overwriting its lane and timestamp
data), appends the reused entry at the tail of the active deque
initialized with `active = true`, `release_time = none` and the given
lane and timestamp, and leaves the total entry count unchanged. -/
theorem claim1_spawn_evicts_oldest (p : BarPool) (lane : ℤ) (t : ℚ) (id : ℕ) (rest : List ℕ)
    (hin : p.inactive_bars = [])
    (hfull : p.max_size ≤ poolCount p)
    (hact : p.active_bars = id :: rest)
    (hid : id < p.store.length) :
    (p.spawn lane t).2 = id
    ∧ (p.spawn lane t).1.active_bars = rest ++ [id]
    ∧ (p.spawn lane t).1.inactive_bars = []
    ∧ (p.spawn lane t).1.store.getD id Bar.mkNew
        = { lane_index := lane, press_time := t, release_time := none, active := true }
    ∧ poolCount (p.spawn lane t).1 = poolCount p := by
  have hle : p.max_size ≤ rest.length + 1 := by
    have h2 := hfull
    simp [poolCount, hact, hin] at h2
    exact h2
  have hcond : ¬ (rest.length + 1 < p.max_size) := not_lt.mpr hle
  have hset : (p.store.set id
      { lane_index := lane, press_time := t, release_time := none, active := true })[id]?
      = some { lane_index := lane, press_time := t, release_time := none, active := true } :=
    List.getElem?_set_eq_of_lt _ hid
  refine ⟨?_, ?_, ?_, ?_, ?_⟩ <;>
    simp [BarPool.spawn, hin, hact, hcond, hset, poolCount]

/-- Witness for C1, which is exactly the claim's `max_size = 2` scenario:
after two spawns from a fresh two-entry pool both entries are held
(`active = [1, 0]`, entry 1 being the first-spawned), and a third spawn
evicts entry 1 and overwrites its lane/timestamp data with lane 2,
timestamp 2. -/
theorem claim1_spawn_evicts_oldest_witness :
    (runOps 2 [PoolOp.spawn 0 0, PoolOp.spawn 1 1]).inactive_bars = []
    ∧ (runOps 2 [PoolOp.spawn 0 0, PoolOp.spawn 1 1]).max_size
        ≤ poolCount (runOps 2 [PoolOp.spawn 0 0, PoolOp.spawn 1 1])
    ∧ (runOps 2 [PoolOp.spawn 0 0, PoolOp.spawn 1 1]).active_bars = 1 :: [0]
    ∧ ((runOps 2 [PoolOp.spawn 0 0, PoolOp.spawn 1 1]).spawn 2 2).2 = 1
    ∧ ((runOps 2 [PoolOp.spawn 0 0, PoolOp.spawn 1 1]).spawn 2 2).1.active_bars = [0] ++ [1]
    ∧ ((runOps 2 [PoolOp.spawn 0 0, PoolOp.spawn 1 1]).spawn 2 2).1.store.getD 1 Bar.mkNew
        = { lane_index := 2, press_time := 2, release_time := none, active := true } := by
  have h := claim1_spawn_evicts_oldest (runOps 2 [PoolOp.spawn 0 0, PoolOp.spawn 1 1])
    2 2 1 [0] (by decide) (by decide) (by decide) (by decide)
  exact ⟨by decide, by decide, by decide, h.1, h.2.1, h.2.2.2.1⟩

/-- Pool operations never change `max_size`. -/
theorem max_size_applyOp (p : BarPool) (op : PoolOp) :
    (applyOp p op).max_size = p.max_size := by
  rcases op with ⟨lane, t⟩ | id
  · rcases hi : p.inactive_bars with _ | ⟨id, rest⟩
    · simp only [applyOp, BarPool.spawn, hi]
    · simp [applyOp, BarPool.spawn, hi]
  · simp only [applyOp]
    unfold BarPool.recycleFromActive
    split <;> simp [BarPool.recycle]

/-- Spawn step of the count bound: assuming `1 ≤ max_size`, a spawn never
pushes `active + inactive` above `max_size`. -/
theorem poolCount_spawn_le (p : BarPool) (lane : ℤ) (t : ℚ)
    (hpos : 1 ≤ p.max_size) (h : poolCount p ≤ p.max_size) :
    poolCount (p.spawn lane t).1 ≤ p.max_size := by
  rcases hi : p.inactive_bars with _ | ⟨id, rest⟩
  · rcases ha : p.active_bars with _ | ⟨id2, rest2⟩
    · by_cases hc : (0:ℕ) < p.max_size <;>
        simp [BarPool.spawn, hi, ha, hc, poolCount] <;> omega
    · by_cases hc : rest2.length + 1 < p.max_size <;>
        simp [BarPool.spawn, hi, ha, hc, poolCount] <;>
        simp [poolCount, hi, ha] at h <;> omega
  · simp [BarPool.spawn, hi, poolCount]
    simp [poolCount, hi] at h
    omega

/-- The guarded recycle call site preserves the total entry count: the
removal from the active deque and the append to the inactive deque
cancel, and a failed removal recycles nothing. -/
theorem poolCount_recycleFromActive (p : BarPool) (id : ℕ) :
    poolCount (p.recycleFromActive id) = poolCount p := by
  unfold BarPool.recycleFromActive
  by_cases hmem : id ∈ p.active_bars
  · have hlen := List.length_erase_of_mem hmem
    have hpos : 1 ≤ p.active_bars.length := List.length_pos.mpr (List.ne_nil_of_mem hmem)
    simp [hmem, BarPool.recycle, poolCount, hlen]
    omega
  · simp [hmem]

/-- One engine operation preserves the count bound when `1 ≤ max_size`. -/
theorem poolCount_applyOp_le (p : BarPool) (op : PoolOp)
    (hpos : 1 ≤ p.max_size) (h : poolCount p ≤ p.max_size) :
    poolCount (applyOp p op) ≤ p.max_size := by
  rcases op with ⟨lane, t⟩ | id
  · exact poolCount_spawn_le p lane t hpos h
  · simpa [applyOp, poolCount_recycleFromActive] using h

/-- C2 counterexample: with `max_size = 0`, a single spawn from the
fresh pool (both deques empty) takes the final allocation fallback of
`spawn` (line 54) and produces one entry, so the total count exceeds
`max_size`.  This refutes the claim's universal quantification over
`max_size`. -/
theorem claim2_count_bound_counterexample :
    ¬ (poolCount (runOps 0 [PoolOp.spawn 0 0]) ≤ 0) := by decide

/-- C2 (amended): for every `max_size ≥ 1` and every sequence of spawn
and engine recycle operations starting from a freshly constructed
`BarPool` (which pre-warms `min(max_size, 50)` inactive entries), the
total number of entries `len(active_bars) + len(inactive_bars)` never
exceeds `max_size`. -/
theorem claim2_count_bound_amended (max_size : ℕ) (hpos : 1 ≤ max_size)
    (ops : List PoolOp) :
    poolCount (runOps max_size ops) ≤ max_size := by
  suffices hgen : ∀ (l : List PoolOp) (p : BarPool), 1 ≤ p.max_size →
      poolCount p ≤ p.max_size → poolCount (l.foldl applyOp p) ≤ p.max_size by
    have hinit : poolCount (BarPool.init max_size) ≤ max_size := by
      simp [BarPool.init, poolCount]
    exact hgen ops (BarPool.init max_size) (by simpa [BarPool.init] using hpos) hinit
  intro l
  induction l with
  | nil => intro p _ h; simpa using h
  | cons op rest ih =>
    intro p hp h
    have hms := max_size_applyOp p op
    have hnext := ih (applyOp p op) (by rw [hms]; exact hp)
      (by rw [hms]; exact poolCount_applyOp_le p op hp h)
    rw [hms] at hnext
    simpa using hnext

/-- Witness for C2 (amended): with `max_size = 2`, after three spawns and
one engine recycle the count is still at most 2. -/
theorem claim2_count_bound_amended_witness :
    (1 : ℕ) ≤ 2
    ∧ poolCount (runOps 2 [PoolOp.spawn 0 0, PoolOp.spawn 1 1,
        PoolOp.spawn 2 2, PoolOp.recycle 0]) ≤ 2 :=
  ⟨by decide, claim2_count_bound_amended 2 (by decide)
    [PoolOp.spawn 0 0, PoolOp.spawn 1 1, PoolOp.spawn 2 2, PoolOp.recycle 0]⟩

/-- Folding the guarded recycle over a list of indices never removes an
index outside that list from the active deque. -/
theorem mem_active_foldl_recycleFromActive (l : List ℕ) (p : BarPool) (id : ℕ)
    (hmem : id ∈ p.active_bars) (hnot : id ∉ l) :
    id ∈ (l.foldl BarPool.recycleFromActive p).active_bars := by
  induction l generalizing p with
  | nil => simpa using hmem
  | cons j rest ih =>
    have hne : id ≠ j := fun h => hnot (h ▸ List.mem_cons_self j rest)
    have hnot' : id ∉ rest := fun h => hnot (List.mem_cons_of_mem j h)
    have hstep : id ∈ (p.recycleFromActive j).active_bars := by
      unfold BarPool.recycleFromActive
      by_cases hj : j ∈ p.active_bars
      · simp only [hj, if_true, BarPool.recycle]
        exact (List.mem_erase_of_ne hne).mpr hmem
      · simp only [hj, if_false]
        exact hmem
    exact ih (p.recycleFromActive j) hstep hnot'

/-- C7: a bar is selected for recycling purely by the geometric
off-screen test — flowing toward increasing Y exactly when its top edge
exceeds the screen height, flowing toward decreasing Y exactly when
`top edge + height < 0` — and a bar whose computed alpha is `≤ 0` is
skipped for drawing on that frame but not recycled on that basis alone:
it remains in the active deque after the frame's recycle pass. -/
theorem claim7_recycle_is_geometric (cfg : PhysCfg) (direction : ℤ)
    (origin_y screen_h now : ℚ) (bar : Bar) (p : BarPool) (id : ℕ) :
    ((computeBar cfg direction origin_y screen_h now bar).should_recycle = true ↔
        (if direction = 1 then
          screen_h < (computeBar cfg direction origin_y screen_h now bar).rect_y
         else
          (computeBar cfg direction origin_y screen_h now bar).rect_y
            + (computeBar cfg direction origin_y screen_h now bar).height_bar < 0))
    ∧ ((computeBar cfg direction origin_y screen_h now bar).alpha ≤ 0 →
        (computeBar cfg direction origin_y screen_h now bar).should_recycle = false →
        barOutcome cfg direction origin_y screen_h now bar = BarOutcome.skipped)
    ∧ (id ∈ p.active_bars →
        (computeBar cfg direction origin_y screen_h now (p.store.getD id Bar.mkNew)).should_recycle
          = false →
        id ∈ (frameStep cfg direction origin_y screen_h now p).1.active_bars
        ∧ ((computeBar cfg direction origin_y screen_h now (p.store.getD id Bar.mkNew)).alpha ≤ 0 →
            id ∉ (frameStep cfg direction origin_y screen_h now p).2)) := by
  refine ⟨?_, ?_, ?_⟩
  · by_cases hd : direction = 1 <;> simp [computeBar, hd]
  · intro halpha hsr
    simp [barOutcome, hsr, halpha]
  · intro hmem hsr
    constructor
    · simp only [frameStep]
      apply mem_active_foldl_recycleFromActive _ _ _ hmem
      intro hin
      have := List.of_mem_filter hin
      rw [hsr] at this
      exact Bool.false_ne_true (by simpa using this)
    · intro halpha hin
      simp only [frameStep] at hin
      have := List.of_mem_filter hin
      have hconj : (computeBar cfg direction origin_y screen_h now
            (p.store.getD id Bar.mkNew)).should_recycle = false
          ∧ (0:ℚ) < (computeBar cfg direction origin_y screen_h now
            (p.store.getD id Bar.mkNew)).alpha := by
        simpa using this
      exact absurd halpha (not_le.mpr hconj.2)

/-- Witness for C7: a pool holding one active held bar pressed at
`t = 0`, frame evaluated at `now = 1` with the default configuration
flowing down from origin 0 on a 1080-pixel screen: the bar is on screen,
not recycled, and the frame keeps it active. -/
theorem claim7_recycle_is_geometric_witness :
    (0 : ℕ) ∈ (BarPool.mk 1 [0] []
        [{ lane_index := 0, press_time := 0, release_time := none, active := true }]).active_bars
    ∧ (computeBar defaultPhysCfg 1 0 1080 1
        ((BarPool.mk 1 [0] []
          [{ lane_index := 0, press_time := 0, release_time := none, active := true }]).store.getD
            0 Bar.mkNew)).should_recycle = false
    ∧ (0 : ℕ) ∈ (frameStep defaultPhysCfg 1 0 1080 1
        (BarPool.mk 1 [0] []
          [{ lane_index := 0, press_time := 0, release_time := none, active := true }])).1.active_bars := by
  have hmem : (0 : ℕ) ∈ (BarPool.mk 1 [0] []
      [{ lane_index := 0, press_time := 0, release_time := none, active := true }]).active_bars := by
    decide
  have hsr : (computeBar defaultPhysCfg 1 0 1080 1
      ((BarPool.mk 1 [0] []
        [{ lane_index := 0, press_time := 0, release_time := none, active := true }]).store.getD
          0 Bar.mkNew)).should_recycle = false := by
    norm_num [computeBar, distHead, distTailRaw, defaultPhysCfg, List.getD]
  exact ⟨hmem, hsr,
    ((claim7_recycle_is_geometric defaultPhysCfg 1 0 1080 1 Bar.mkNew
      (BarPool.mk 1 [0] []
        [{ lane_index := 0, press_time := 0, release_time := none, active := true }]) 0).2.2
      hmem hsr).1⟩

/-- A freshly constructed pool satisfies the invariant. -/
theorem poolInv_init (max_size : ℕ) : PoolInv (BarPool.init max_size) := by
  constructor
  · simp [BarPool.init, poolIds, List.nodup_range]
  · intro id
    simp [BarPool.init, poolIds, List.mem_range]

/-- The invariant transfers along a permutation of the deque contents
when the arena size is unchanged. -/
theorem poolInv_of_perm (p q : BarPool)
    (hperm : List.Perm (poolIds q) (poolIds p))
    (hlen : q.store.length = p.store.length)
    (h : PoolInv p) : PoolInv q := by
  obtain ⟨hnd, hmem⟩ := h
  refine ⟨hperm.nodup_iff.mpr hnd, fun id => ?_⟩
  rw [hperm.mem_iff, hlen]
  exact hmem id

/-- The invariant transfers when the deques gain exactly the one index
of a newly allocated arena entry. -/
theorem poolInv_of_grow (p q : BarPool)
    (hperm : List.Perm (poolIds q) (poolIds p ++ [p.store.length]))
    (hlen : q.store.length = p.store.length + 1)
    (h : PoolInv p) : PoolInv q := by
  obtain ⟨hnd, hmem⟩ := h
  constructor
  · refine hperm.nodup_iff.mpr (List.Nodup.append hnd (List.nodup_singleton _) ?_)
    intro a ha hb
    simp only [List.mem_singleton] at hb
    subst hb
    exact absurd ((hmem _).mp ha) (lt_irrefl _)
  · intro id
    rw [hperm.mem_iff, hlen]
    simp only [List.mem_append, List.mem_singleton, hmem id, Nat.lt_succ_iff_lt_or_eq]

/-- Herding the four branches of `spawn`: each either permutes the deque
contents or appends the freshly allocated index, so the invariant is
preserved. -/
theorem poolInv_spawn (p : BarPool) (lane : ℤ) (t : ℚ) (h : PoolInv p) :
    PoolInv (p.spawn lane t).1 := by
  rcases hi : p.inactive_bars with _ | ⟨id, rest⟩
  · by_cases hc : p.active_bars.length < p.max_size
    · have hres : (p.spawn lane t).1 = { p with
          active_bars := p.active_bars ++ [p.store.length]
          inactive_bars := []
          store := (p.store ++ [Bar.mkNew]).set p.store.length
            { lane_index := lane, press_time := t, release_time := none, active := true } } := by
        simp [BarPool.spawn, hi, hc]
      rw [hres]
      refine poolInv_of_grow p _ ?_ (by simp) h
      simp [poolIds, hi]
    · rcases ha : p.active_bars with _ | ⟨id2, rest2⟩
      · have hres : (p.spawn lane t).1 = { p with
            active_bars := [p.store.length]
            inactive_bars := []
            store := (p.store ++ [Bar.mkNew]).set p.store.length
              { lane_index := lane, press_time := t, release_time := none, active := true } } := by
          simp [BarPool.spawn, hi, ha, hc]
        rw [hres]
        refine poolInv_of_grow p _ ?_ (by simp) h
        simp [poolIds, hi, ha]
      · have hc2 : ¬ (rest2.length + 1 < p.max_size) := by
          rw [ha] at hc; simpa using hc
        have hres : (p.spawn lane t).1 = { p with
            active_bars := rest2 ++ [id2]
            inactive_bars := []
            store := p.store.set id2
              { lane_index := lane, press_time := t, release_time := none, active := true } } := by
          simp [BarPool.spawn, hi, ha, hc2]
        rw [hres]
        refine poolInv_of_perm p _ ?_ (by simp) h
        simp only [poolIds, hi, ha]
        simp only [List.append_nil]
        exact List.perm_append_singleton id2 rest2
  · have hres : (p.spawn lane t).1 = { p with
        active_bars := p.active_bars ++ [id]
        inactive_bars := rest
        store := p.store.set id
          { lane_index := lane, press_time := t, release_time := none, active := true } } := by
      simp [BarPool.spawn, hi]
    rw [hres]
    refine poolInv_of_perm p _ ?_ (by simp) h
    simp only [poolIds, hi]
    rw [List.append_assoc]
    simp

/-- The guarded recycle call site preserves the invariant: the erased
index reappears at the head of the inactive deque, and a failed removal
changes nothing. -/
theorem poolInv_recycleFromActive (p : BarPool) (id : ℕ) (h : PoolInv p) :
    PoolInv (p.recycleFromActive id) := by
  unfold BarPool.recycleFromActive
  by_cases hmem : id ∈ p.active_bars
  · simp only [hmem, if_true, BarPool.recycle]
    refine poolInv_of_perm p _ ?_ (by simp) h
    simp only [poolIds]
    refine List.Perm.trans List.perm_middle ?_
    exact List.Perm.append_right _ (List.perm_cons_erase hmem).symm
  · simpa [hmem] using h

/-- Every pool reachable by engine operations satisfies the invariant. -/
theorem poolInv_runOps (max_size : ℕ) (ops : List PoolOp) :
    PoolInv (runOps max_size ops) := by
  suffices hgen : ∀ (l : List PoolOp) (p : BarPool), PoolInv p → PoolInv (l.foldl applyOp p) by
    exact hgen ops (BarPool.init max_size) (poolInv_init max_size)
  intro l
  induction l with
  | nil => intro p h; simpa using h
  | cons op rest ih =>
    intro p h
    refine ih (applyOp p op) ?_
    rcases op with ⟨lane, t⟩ | id
    · exact poolInv_spawn p lane t h
    · exact poolInv_recycleFromActive p id h


/-- C3: in every pool reachable by engine operations from a fresh
`BarPool`, every allocated `Bar` is in exactly one of the two deques
(never both, never neither), and a recycle invoked through the engine's
guarded call site on an entry that is already inactive (no longer in the
active deque) is ignored: the pool is left unchanged, the entry neither
moved nor duplicated. -/
theorem claim3_exactly_one (max_size : ℕ) (ops : List PoolOp) :
    (∀ id : ℕ, id < (runOps max_size ops).store.length →
        (id ∈ (runOps max_size ops).active_bars ∧ id ∉ (runOps max_size ops).inactive_bars)
        ∨ (id ∈ (runOps max_size ops).inactive_bars ∧ id ∉ (runOps max_size ops).active_bars))
    ∧ (∀ id : ℕ, id ∈ (runOps max_size ops).inactive_bars →
        (runOps max_size ops).recycleFromActive id = runOps max_size ops) := by
  obtain ⟨hnd, hmem⟩ := poolInv_runOps max_size ops
  simp only [poolIds] at hnd hmem
  have hdisj : List.Disjoint (runOps max_size ops).active_bars
      (runOps max_size ops).inactive_bars := (List.nodup_append.mp hnd).2.2
  constructor
  · intro id hid
    rcases List.mem_append.mp ((hmem id).mpr hid) with ha | hb
    · exact Or.inl ⟨ha, fun hb => hdisj ha hb⟩
    · exact Or.inr ⟨hb, fun ha => hdisj ha hb⟩
  · intro id hin
    have hnotact : id ∉ (runOps max_size ops).active_bars := fun ha => hdisj ha hin
    unfold BarPool.recycleFromActive
    simp [hnotact]

/-- Witness for C3: after one spawn from a fresh two-entry pool, entry 1
is exactly in the active deque, and recycling the already-inactive
entry 0 leaves the pool unchanged. -/
theorem claim3_exactly_one_witness :
    (((1 : ℕ) ∈ (runOps 2 [PoolOp.spawn 0 0]).active_bars
        ∧ (1 : ℕ) ∉ (runOps 2 [PoolOp.spawn 0 0]).inactive_bars)
      ∨ ((1 : ℕ) ∈ (runOps 2 [PoolOp.spawn 0 0]).inactive_bars
        ∧ (1 : ℕ) ∉ (runOps 2 [PoolOp.spawn 0 0]).active_bars))
    ∧ (runOps 2 [PoolOp.spawn 0 0]).recycleFromActive 0 = runOps 2 [PoolOp.spawn 0 0] :=
  ⟨(claim3_exactly_one 2 [PoolOp.spawn 0 0]).1 1 (by decide),
    (claim3_exactly_one 2 [PoolOp.spawn 0 0]).2 0 (by decide)⟩

/-- C8 counterexample: `handle_input` performs no lane-map membership
check, so a press for lane index 99 — outside the default lane map,
whose indices are 0-3 — is NOT a no-op: it spawns a bar and mutates
`active_holds`.  This refutes the out-of-lane-map part of the claim. -/
theorem claim8_lane_map_counterexample :
    ((99:ℤ) ∉ defaultLaneValues)
    ∧ (handle_input (InputState.mk (BarPool.init 300) [] [] [(0,0),(1,0),(2,0),(3,0)]) 99 0).active_holds
        ≠ (InputState.mk (BarPool.init 300) [] [] [(0,0),(1,0),(2,0),(3,0)]).active_holds := by
  decide

/-- C8 (amended): a press for a lane that already has a current hold is a
no-op leaving the whole engine state unchanged, and a release for a lane
with no current hold leaves the pool, the active holds and the key
counters unchanged (only the visual key set may shrink); but the overlay
performs no lane-map membership check: a press for any lane index
without a current hold, inside or outside the configured lane map,
spawns a bar (out-of-map events are filtered upstream by the input
monitor, not here). -/
theorem claim8_input_guards_amended (s : InputState) (lane : ℤ) (t : ℚ) :
    ((s.active_holds.lookup lane).isSome → handle_input s lane t = s)
    ∧ (s.active_holds.lookup lane = none →
        (handle_release s lane t).pool = s.pool
        ∧ (handle_release s lane t).active_holds = s.active_holds
        ∧ (handle_release s lane t).key_counts = s.key_counts)
    ∧ (s.active_holds.lookup lane = none →
        (handle_input s lane t).active_holds
            = s.active_holds ++ [(lane, (s.pool.spawn lane t).2)]
        ∧ (handle_input s lane t).pool = (s.pool.spawn lane t).1) := by
  refine ⟨fun h => ?_, fun h => ?_, fun h => ?_⟩
  · simp [handle_input, h]
  · simp [handle_release, h]
  · rcases hsp : s.pool.spawn lane t with ⟨pool1, id⟩
    constructor <;> simp [handle_input, h, hsp]

/-- Witness for C8 (amended): on an engine state holding lane 0, a second
press on lane 0 changes nothing; on an empty state, a press on lane 0
appends a hold. -/
theorem claim8_input_guards_amended_witness :
    (((InputState.mk (BarPool.init 2) [(0, 0)] [] []).active_holds.lookup 0).isSome
      ∧ handle_input (InputState.mk (BarPool.init 2) [(0, 0)] [] []) 0 5
          = InputState.mk (BarPool.init 2) [(0, 0)] [] [])
    ∧ ((InputState.mk (BarPool.init 2) [] [] []).active_holds.lookup 0 = none
      ∧ (handle_input (InputState.mk (BarPool.init 2) [] [] []) 0 0).active_holds
          = (InputState.mk (BarPool.init 2) [] [] []).active_holds
            ++ [(0, ((InputState.mk (BarPool.init 2) [] [] []).pool.spawn 0 0).2)]) :=
  ⟨⟨rfl, (claim8_input_guards_amended (InputState.mk (BarPool.init 2) [(0, 0)] [] []) 0 5).1 rfl⟩,
    ⟨rfl, ((claim8_input_guards_amended (InputState.mk (BarPool.init 2) [] [] []) 0 0).2.2 rfl).1⟩⟩

/-- C9 counterexample: with the panel configured `above` but a vertical
offset of 800 on a 1000-pixel screen, the computed panel position falls
in the lower half, and the overlay makes bars originate at the panel's
TOP edge and flow toward decreasing Y — not the bottom edge / increasing
Y that the claim promises for every `above` configuration. -/
theorem claim9_configured_above_counterexample :
    (KVCfg.mk 70 60 PanelPos.above 800).panel_position = PanelPos.above
    ∧ (get_kv_geometry (KVCfg.mk 70 60 PanelPos.above 800) 1000).is_top = false
    ∧ originDirection (get_kv_geometry (KVCfg.mk 70 60 PanelPos.above 800) 1000)
        = ((get_kv_geometry (KVCfg.mk 70 60 PanelPos.above 800) 1000).y, -1)
    ∧ (originDirection (get_kv_geometry (KVCfg.mk 70 60 PanelPos.above 800) 1000)).2 ≠ 1 := by
  refine ⟨rfl, ?_, ?_, ?_⟩ <;>
    norm_num [get_kv_geometry, originDirection]

/-- C9 (amended): the origin and flow direction are decided solely by
the half-screen test on the computed panel position (`is_top`): panel
center in the upper half → bars originate at the panel's bottom edge and
flow toward increasing Y; otherwise → top edge and decreasing Y.  When
the configured position plus offset leaves the panel in its nominal half
(`above` in the upper half, `below` in the lower half) this agrees with
the configured position; an offset that flips the panel's half flips the
flow. -/
theorem claim9_flow_direction_amended (cfg : KVCfg) (screen_h : ℚ) :
    ((get_kv_geometry cfg screen_h).is_top = true →
        originDirection (get_kv_geometry cfg screen_h)
          = ((get_kv_geometry cfg screen_h).y + (get_kv_geometry cfg screen_h).height, 1))
    ∧ ((get_kv_geometry cfg screen_h).is_top = false →
        originDirection (get_kv_geometry cfg screen_h)
          = ((get_kv_geometry cfg screen_h).y, -1))
    ∧ ((get_kv_geometry cfg screen_h).is_top = true ↔
        (get_kv_geometry cfg screen_h).y + cfg.kv_height / 2 < screen_h / 2)
    ∧ (cfg.panel_position = PanelPos.above →
        (50 + cfg.panel_offset_y) + cfg.kv_height / 2 < screen_h / 2 →
        originDirection (get_kv_geometry cfg screen_h)
          = ((get_kv_geometry cfg screen_h).y + (get_kv_geometry cfg screen_h).height, 1))
    ∧ (cfg.panel_position = PanelPos.below →
        ¬ ((screen_h - cfg.kv_height - 50 + cfg.panel_offset_y) + cfg.kv_height / 2 < screen_h / 2) →
        originDirection (get_kv_geometry cfg screen_h)
          = ((get_kv_geometry cfg screen_h).y, -1)) := by
  refine ⟨fun h => ?_, fun h => ?_, ?_, fun hpos h => ?_, fun hpos h => ?_⟩
  · simp [originDirection, h]
  · simp [originDirection, h]
  · simp [get_kv_geometry]
  · simp [originDirection, get_kv_geometry, hpos, h]
  · simp [originDirection, get_kv_geometry, hpos, h]

/-- Witness for C9 (amended): the default panel configuration (`below`,
no offset, height 60) on a 1080-pixel screen stays in the lower half, so
bars originate at the panel's top edge and flow toward decreasing Y. -/
theorem claim9_flow_direction_amended_witness :
    (KVCfg.mk 70 60 PanelPos.below 0).panel_position = PanelPos.below
    ∧ ¬ ((((1080:ℚ) - (KVCfg.mk 70 60 PanelPos.below 0).kv_height - 50
          + (KVCfg.mk 70 60 PanelPos.below 0).panel_offset_y)
          + (KVCfg.mk 70 60 PanelPos.below 0).kv_height / 2) < (1080:ℚ) / 2)
    ∧ originDirection (get_kv_geometry (KVCfg.mk 70 60 PanelPos.below 0) 1080)
        = ((get_kv_geometry (KVCfg.mk 70 60 PanelPos.below 0) 1080).y, -1) :=
  ⟨rfl, by norm_num,
    (claim9_flow_direction_amended (KVCfg.mk 70 60 PanelPos.below 0) 1080).2.2.2.2
      rfl (by norm_num)⟩


/-- Looking a key up in a concatenation of association lists finds the
first hit. -/
theorem lookup_append (l1 l2 : List (ℤ × ℕ)) (k : ℤ) :
    (l1 ++ l2).lookup k = ((l1.lookup k).or (l2.lookup k)) := by
  induction l1 with
  | nil => simp
  | cons a rest ih =>
    rcases a with ⟨k1, v⟩
    by_cases hk : k = k1
    · simp [List.lookup, hk, ih]
    · have hbeq : (k == k1) = false := beq_eq_false_iff_ne.mpr hk
      simp [List.lookup, hbeq, ih]

/-- Unfolding one step of the `_init_key_counts` fold. -/
theorem initKeyCounts_cons (a : ℤ) (rest : List ℤ) (kc : List (ℤ × ℕ)) :
    initKeyCounts (a :: rest) kc
      = initKeyCounts rest (if (kc.lookup a).isSome then kc else kc ++ [(a, 0)]) := rfl

/-- An existing counter survives `_init_key_counts` with its value
untouched, whatever lane indices are processed. -/
theorem lookup_initKeyCounts_of_isSome (lv : List ℤ) (kc : List (ℤ × ℕ)) (idx : ℤ)
    (h : (kc.lookup idx).isSome) :
    (initKeyCounts lv kc).lookup idx = kc.lookup idx := by
  induction lv generalizing kc with
  | nil => rfl
  | cons a rest ih =>
    rw [initKeyCounts_cons]
    by_cases ha : (kc.lookup a).isSome
    · rw [if_pos ha]
      exact ih kc h
    · rw [if_neg ha]
      rw [ih (kc ++ [(a, 0)]) (by rw [lookup_append]; cases hkc : kc.lookup idx <;> simp [hkc] <;> simp [hkc] at h)]
      rw [lookup_append]
      obtain ⟨v, hv⟩ := Option.isSome_iff_exists.mp h
      simp [hv]

/-- For every lane index processed by `_init_key_counts`, the resulting
counter is the pre-existing value when present and zero otherwise. -/
theorem lookup_initKeyCounts (lv : List ℤ) (kc : List (ℤ × ℕ)) (idx : ℤ)
    (h : idx ∈ lv) :
    (initKeyCounts lv kc).lookup idx = some ((kc.lookup idx).getD 0) := by
  induction lv generalizing kc with
  | nil => cases h
  | cons a rest ih =>
    rw [initKeyCounts_cons]
    by_cases hin : idx ∈ rest
    · rw [ih _ hin]
      congr 1
      by_cases ha : (kc.lookup a).isSome
      · rw [if_pos ha]
      · rw [if_neg ha, lookup_append]
        by_cases hia : idx = a
        · subst hia
          cases hkc : kc.lookup idx
          · simp [List.lookup]
          · simp [hkc] at ha
        · have hbeq : (idx == a) = false := beq_eq_false_iff_ne.mpr hia
          simp [List.lookup, hbeq]
    · have hia : idx = a := by
        rcases List.mem_cons.mp h with h1 | h2
        · exact h1
        · exact absurd h2 hin
      subst hia
      by_cases ha : (kc.lookup idx).isSome
      · rw [if_pos ha, lookup_initKeyCounts_of_isSome rest kc idx ha]
        obtain ⟨v, hv⟩ := Option.isSome_iff_exists.mp ha
        simp [hv]
      · have hnone : kc.lookup idx = none := Option.not_isSome_iff_eq_none.mp ha
        have hstep : ((kc ++ [(idx, 0)]).lookup idx) = some 0 := by
          rw [lookup_append, hnone]
          simp [List.lookup]
        rw [if_neg ha, lookup_initKeyCounts_of_isSome rest _ idx (by simp [hstep]), hstep, hnone]
        rfl

/-- C10 counterexample: a settings change does NOT reset existing
per-lane counters.  With lane 0 already counted to 5, re-binding the
lane map to values `[0]` leaves the counter at 5, not 0:
`_init_key_counts` only adds missing entries. -/
theorem claim10_counters_counterexample :
    (onSettingsChangedState [0] [(0, 5)] none).1.lookup 0 = some 5 ∧ (5:ℕ) ≠ 0 := by
  decide

/-- C10 (amended): after a settings change the cached panel geometry is
invalidated (set to absent, so the next query recomputes from the current
configuration), and every lane index of the new lane map has a counter —
initialized to zero when it was missing — but counters that already
existed KEEP their previous values: they are not reset. -/
theorem claim10_settings_change_amended (laneValues : List ℤ) (kc : List (ℤ × ℕ))
    (cached : Option KVGeom) (kvcfg : KVCfg) (screen_h : ℚ) (idx : ℤ)
    (hidx : idx ∈ laneValues) :
    (onSettingsChangedState laneValues kc cached).2 = none
    ∧ getKvGeometryCached kvcfg (onSettingsChangedState laneValues kc cached).2 screen_h
        = get_kv_geometry kvcfg screen_h
    ∧ (onSettingsChangedState laneValues kc cached).1.lookup idx
        = some ((kc.lookup idx).getD 0) :=
  ⟨rfl, rfl, lookup_initKeyCounts laneValues kc idx hidx⟩

/-- Witness for C10 (amended): re-binding to lane values `[0, 1]` with an
existing counter `(0, 3)` invalidates the cache and yields counter 3 for
lane 0. -/
theorem claim10_settings_change_amended_witness :
    (0:ℤ) ∈ [(0:ℤ), 1]
    ∧ (onSettingsChangedState [0, 1] [(0, 3)] none).2 = none
    ∧ (onSettingsChangedState [0, 1] [(0, 3)] none).1.lookup 0
        = some ((([((0:ℤ), 3)] : List (ℤ × ℕ)).lookup (0:ℤ)).getD 0) :=
  ⟨by decide,
    (claim10_settings_change_amended [0, 1] [(0, 3)] none
      (KVCfg.mk 70 60 PanelPos.below 0) 1080 0 (by decide)).1,
    (claim10_settings_change_amended [0, 1] [(0, 3)] none
      (KVCfg.mk 70 60 PanelPos.below 0) 1080 0 (by decide)).2.2⟩

end RainingKeys
